import Mathlib

/-! Verification of the routing and status-classification core of the roa
web framework. The definitions embed `src/src/router.rs` (route tree,
compilation into a dispatch table, request dispatch) and `src/src/err.rs`
(status classification). Parts of the repository that those files use but
whose sources are not present (`path.rs`, `endpoint.rs`, the core crate's
`Middleware`, `Context` storage and `throw`) are modelled from the spec,
as marked on each such definition. -/

set_option autoImplicit false

namespace Roa

/-! ### Status classification, from src/src/err.rs -/

/-- The six severity kinds of `StatusKind` (err.rs lines 11-29). -/
inductive StatusKind where
  | Informational
  | Successful
  | Redirection
  | ClientError
  | ServerError
  | Unknown
deriving DecidableEq, Repr

/-- The classification `StatusKind::infer` (err.rs lines 31-43): the kind is
read off the integer quotient `status_code / 100`. Status codes are
embedded as `Nat`. -/
def StatusKind.infer (status_code : Nat) : StatusKind :=
  match status_code / 100 with
  | 1 => StatusKind.Informational
  | 2 => StatusKind.Successful
  | 3 => StatusKind.Redirection
  | 4 => StatusKind.ClientError
  | 5 => StatusKind.ServerError
  | _ => StatusKind.Unknown

/-- The `Status` record (err.rs lines 4-9) together with the `expose` flag.
The copy of err.rs under src/ predates the flag, but the routing code calls
`Status::new(code, message, true)` with a third argument (router.rs lines
151-159 and 185-189) and the spec's data model lists an "expose to client"
flag, so the constructor here takes it; the inferred kind and the
classification logic are those of err.rs. -/
structure Status where
  status_code : Nat
  kind : StatusKind
  data : String
  expose : Bool
deriving DecidableEq, Repr

/-- The constructor `Status::new` (err.rs lines 45-53): the kind is always
inferred from the code. -/
def Status.new (status_code : Nat) (data : String) (expose : Bool) : Status :=
  { status_code := status_code
    kind := StatusKind.infer status_code
    data := data
    expose := expose }

/-- The escalation predicate `Status::need_throw` (err.rs lines 54-57). -/
def Status.need_throw (s : Status) : Bool :=
  s.kind == StatusKind.ServerError || s.kind == StatusKind.Unknown

/-- Modelled from the spec: the core crate's `throw(status_code, message)`
helper used by the dispatcher (router.rs line 175); it fails with a freshly
constructed `Status`. -/
def throw {α : Type} (status_code : Nat) (message : String) : Except Status α :=
  Except.error (Status.new status_code message true)

/-! ### Path standardization, modelled from the spec (`path.rs` is not
under src/; the spec says: normalize to begin with a single leading
separator, collapse consecutive separators, strip a trailing separator
except for the root path). The character-level helpers below realize
exactly that: split on the separator, drop the empty segments, rejoin. -/

/-- Extends the first piece of a split with one leading character. -/
def consHead (c : Char) : List (List Char) → List (List Char)
  | [] => [[c]]
  | s :: ss => (c :: s) :: ss

/-- Splits a character list at every separator `'/'`; the separators are
consumed, and empty pieces are kept (so the result is never empty). -/
def splitSlash : List Char → List (List Char)
  | [] => [[]]
  | c :: rest =>
    if c = '/' then [] :: splitSlash rest
    else consHead c (splitSlash rest)

/-- Rejoins segments with a single separator `'/'` between adjacent ones. -/
def joinSegs : List (List Char) → List Char
  | [] => []
  | [s] => s
  | s :: t :: rest => s ++ '/' :: joinSegs (t :: rest)

/-- The nonempty segments of a character list: split at separators, drop
the empty pieces. -/
def segsOf (l : List Char) : List (List Char) :=
  (splitSlash l).filter fun s => !s.isEmpty

/-- Modelled from the spec: `standardize_path` of the missing `path.rs`.
One leading separator, consecutive separators collapsed, trailing
separator stripped except for the root: a single `'/'` followed by the
nonempty segments rejoined. -/
def standardize_path (p : String) : String :=
  String.mk ('/' :: joinSegs (segsOf p.data))

/-- The nonempty segments of a path, as strings; dispatch matches dynamic
patterns segment-wise against these. -/
def pathSegments (p : String) : List String :=
  (segsOf p.data).map String.mk

/-- Modelled from the spec: `join_path` of the missing `path.rs` joins a
child path onto the parent's root prefix; registration standardizes the
result when it parses it, so joining with a separator suffices. -/
def join_path (paths : List String) : String :=
  String.mk (joinSegs (paths.map String.data))

/-! ### Path patterns, modelled from the spec (`path.rs` is not under
src/): an ordered list of segments, each a literal or a named capture with
an optional validator; a parsed path is either `Static` (no capture) or
`Dynamic` (a `RegexPath` carrying the segments and the capture names). -/

/-- Modelled from the spec: one segment of a path pattern, either a
literal or a named capture with an optional per-segment validator. -/
inductive Segment where
  | literal (text : String)
  | capture (name : String) (validator : Option (String → Bool))

/-- Modelled from the spec: a dynamic pattern. The source's `RegexPath`
holds a compiled regex `re` and the capture names `vars`; here the matcher
is segment-wise, as the spec describes it, and `vars` enumerates the
capture names. -/
structure RegexPath where
  segments : List Segment
  vars : List String

/-- The two kinds of parsed path, `Path::Static` and `Path::Dynamic`
(matched on in router.rs lines 128-137). -/
inductive Path where
  | Static (path : String)
  | Dynamic (regex_path : RegexPath)

/-- Modelled from the spec: the build-time path error (malformed pattern
or duplicate capture name). -/
inductive PathError where
  | duplicatedVariable
deriving DecidableEq, Repr

/-- The build-time conflict error: two endpoints claim one static path
(`Conflict::Path`, returned in router.rs line 131). -/
inductive Conflict where
  | Path (path : String)
deriving DecidableEq, Repr

/-- Modelled from the spec: a path segment whose text starts with the
capture marker parses as a named capture (the repository's route strings
write captures as in "/file/:filename"); any other segment is a literal. -/
def parseSegment (s : String) : Segment :=
  if s.startsWith ":" then Segment.capture (s.drop 1) none
  else Segment.literal s

/-- The capture names of a segment list, in order. -/
def segmentVars (segs : List Segment) : List String :=
  segs.filterMap fun seg =>
    match seg with
    | Segment.capture name _ => some name
    | Segment.literal _ => none

/-- Modelled from the spec: parsing a route string. The path is
standardized, its segments are read, and a duplicate capture name is a
build-time error; a pattern without captures is `Static`, one with
captures is `Dynamic`. -/
def parsePath (p : String) : Except PathError Path :=
  let sp := standardize_path p
  let segments := (pathSegments sp).map parseSegment
  let vars := segmentVars segments
  if vars.isEmpty then Except.ok (Path.Static sp)
  else if vars.Nodup then
    Except.ok (Path.Dynamic { segments := segments, vars := vars })
  else Except.error PathError.duplicatedVariable

/-- Whether a candidate segment passes a capture's validator (none means
any segment is accepted). -/
def validatorOk (v : Option (String → Bool)) (s : String) : Bool :=
  match v with
  | none => true
  | some f => f s

/-- Modelled from the spec: matching one pattern segment list against the
segments of a candidate path. A literal requires exact equality; a capture
accepts a nonempty segment passing its validator and binds it to the
capture's name. -/
def matchSegs : List Segment → List String → Option (List (String × String))
  | [], [] => some []
  | Segment.literal t :: segs, s :: ss =>
    if t == s then matchSegs segs ss else none
  | Segment.capture name v :: segs, s :: ss =>
    if (!(s == "")) && validatorOk v s then
      (matchSegs segs ss).map fun caps => (name, s) :: caps
    else none
  | _, _ => none

/-- The matcher of a dynamic pattern, the model of `regexp_path.re.captures`
(router.rs line 167): `some` with the capture bindings on a match. -/
def RegexPath.matches (rp : RegexPath) (path : String) : Option (List (String × String)) :=
  matchSegs rp.segments (pathSegments path)

/-- The substring a match bound to a capture name: the model of `cap[name]`
(router.rs line 169). -/
def capLookup (cap : List (String × String)) (v : String) : String :=
  ((cap.find? fun p => p.1 == v).map fun p => p.2).getD ""

/-! ### The scoped variable store, modelled from the spec (the core
crate's `Context` storage is not under src/): a per-request associative
store keyed by a (namespace, name) pair. -/

/-- Modelled from the spec: the per-request context, reduced to its scoped
variable store; an entry is (namespace, name, value) and later writes
shadow earlier ones. -/
structure Context where
  storage : List (String × String × String)
deriving DecidableEq, Repr

/-- The routing-reserved namespace token (`struct RouterSymbol`, router.rs
line 19), embedded as a distinguished key. -/
def RouterSymbol : String := "RouterSymbol"

/-- Modelled from the spec: `ctx.store::<S>(name, value)` publishes a value
under namespace and name. -/
def Context.store (ctx : Context) (symbol name value : String) : Context :=
  { storage := (symbol, name, value) :: ctx.storage }

/-- Modelled from the spec: `ctx.load::<S>(name)` reads the latest value
published under namespace and name. -/
def Context.load (ctx : Context) (symbol name : String) : Option String :=
  (ctx.storage.find? fun e => e.1 == symbol && e.2.1 == name).map fun e => e.2.2

/-- `try_param` of `RouterParam for Context` (router.rs lines 191-194):
the non-failing read of a routing capture. -/
def Context.try_param (ctx : Context) (name : String) : Option String :=
  ctx.load RouterSymbol name

/-- `param` of `RouterParam for Context` (router.rs lines 184-190): the
failing variant, a BAD_REQUEST status with an exposed message when the
name was never captured. -/
def Context.param (ctx : Context) (name : String) : Except Status String :=
  match ctx.try_param name with
  | some v => Except.ok v
  | none =>
    Except.error (Status.new 400 ("router variable `" ++ name ++ "` is required") true)

/-! ### The route tree, from src/src/router.rs. Middleware chains are
embedded as lists of opaque stages: the source's `Middleware::join`
appends a stage and `Middleware::handler` composes the chain, so the
observable execution order of a chain is exactly the list order. -/

/-- Modelled from the spec: an endpoint, a parsed path pattern with its
own middleware chain (`endpoint.rs` is not under src/; its `handler()`
composes the chain that the dispatch table stores). -/
structure Endpoint (Stage : Type) where
  path : Path
  middleware : List Stage

/-- A fresh endpoint at a parsed path (`Endpoint::new`, router.rs line 83). -/
def Endpoint.new {Stage : Type} (path : Path) : Endpoint Stage :=
  { path := path, middleware := [] }

/-- The tagged tree node (router.rs lines 27-30): a nested router or an
endpoint. -/
inductive Node (Stage : Type) where
  | router (root : String) (middleware : List Stage) (nodes : List (Node Stage))
  | endpoint (e : Endpoint Stage)

/-- The route tree (router.rs lines 56-60): a root prefix, this level's
middleware, and the ordered child nodes. -/
structure Router (Stage : Type) where
  root : String
  middleware : List Stage
  nodes : List (Node Stage)

/-- `Router::new` (router.rs lines 63-69). -/
def Router.new {Stage : Type} (path : String) : Router Stage :=
  { root := path, middleware := [], nodes := [] }

/-- `Router::gate` (router.rs lines 71-80): appends a stage to this
level's chain. -/
def Router.gate {Stage : Type} (r : Router Stage) (stage : Stage) : Router Stage :=
  { r with middleware := r.middleware ++ [stage] }

/-- `Node::unwrap_router` (router.rs lines 33-42); the panic branch is the
`none` value. -/
def Node.unwrap_router {Stage : Type} : Node Stage → Option (Router Stage)
  | Node.router root mw ns => some { root := root, middleware := mw, nodes := ns }
  | Node.endpoint _ => none

/-- `Node::unwrap_endpoint` (router.rs lines 44-53); the panic branch is
the `none` value. -/
def Node.unwrap_endpoint {Stage : Type} : Node Stage → Option (Endpoint Stage)
  | Node.endpoint e => some e
  | Node.router _ _ _ => none

/-- `Router::on` (router.rs lines 82-87): parse the joined path, push an
endpoint node, and take the endpoint handle back out of the node just
pushed with `unwrap_endpoint`. The `Option` inside the result records
whether the unwrap survived: `none` is the panic branch. -/
def Router.on {Stage : Type} (r : Router Stage) (path : String) :
    Except PathError (Option (Router Stage × Endpoint Stage)) :=
  match parsePath (join_path [r.root, path]) with
  | Except.error e => Except.error e
  | Except.ok p =>
    let nodes := r.nodes ++ [Node.endpoint (Endpoint.new p)]
    let index := r.nodes.length
    Except.ok ((nodes[index]?.bind Node.unwrap_endpoint).map
      fun e => ({ r with nodes := nodes }, e))

/-- `Router::route` (router.rs lines 89-94): push a nested router node and
take the handle back out of the node just pushed with `unwrap_router`;
`none` is the panic branch. -/
def Router.route {Stage : Type} (r : Router Stage) (path : String) :
    Option (Router Stage × Router Stage) :=
  let child : Router Stage := Router.new (join_path [r.root, path])
  let nodes := r.nodes ++ [Node.router child.root child.middleware child.nodes]
  let index := r.nodes.length
  (nodes[index]?.bind Node.unwrap_router).map fun c => ({ r with nodes := nodes }, c)

mutual

/-- The flattening of one node, following `Router::endpoints` (router.rs
lines 96-121): an endpoint node yields itself; a router node flattens its
children in order and then prepends its own middleware chain in front of
every collected endpoint's chain. -/
def Node.endpoints {Stage : Type} : Node Stage → List (Endpoint Stage)
  | Node.endpoint e => [e]
  | Node.router _ mw ns =>
    (endpointsOfNodes ns).map fun e => { e with middleware := mw ++ e.middleware }

/-- The flattening of a child list in order (the `for node in nodes` loop of
`Router::endpoints`). -/
def endpointsOfNodes {Stage : Type} : List (Node Stage) → List (Endpoint Stage)
  | [] => []
  | n :: rest => Node.endpoints n ++ endpointsOfNodes rest

end

/-- `Router::endpoints` on the tree's root (router.rs lines 96-121). -/
def Router.endpoints {Stage : Type} (r : Router Stage) : List (Endpoint Stage) :=
  (endpointsOfNodes r.nodes).map fun e => { e with middleware := r.middleware ++ e.middleware }

mutual

/-- The spec's description of flattening, stated in its own words for the
refinement comparison: each endpoint receives every ancestor router's
middleware chain prepended root-first (`anc` accumulates the ancestor
chains from the root down) in front of its own chain. -/
def Node.endpointsSpec {Stage : Type} (anc : List Stage) : Node Stage → List (Endpoint Stage)
  | Node.endpoint e => [{ e with middleware := anc ++ e.middleware }]
  | Node.router _ mw ns => nodesEndpointsSpec (anc ++ mw) ns

/-- The spec-side flattening of a child list in order. -/
def nodesEndpointsSpec {Stage : Type} (anc : List Stage) :
    List (Node Stage) → List (Endpoint Stage)
  | [] => []
  | n :: rest => Node.endpointsSpec anc n ++ nodesEndpointsSpec anc rest

end

/-- The spec-side flattening of the whole tree: the only ancestor of a
top-level child is the root router itself. -/
def Router.endpointsSpec {Stage : Type} (r : Router Stage) : List (Endpoint Stage) :=
  nodesEndpointsSpec r.middleware r.nodes

/-! ### The compiled dispatch table and the dispatcher, from
`Router::handler` (router.rs lines 123-179). -/

/-- The dispatch table: the static table (the radix trie, embedded as an
association list with distinct keys) and the ordered dynamic list. -/
structure Table (Stage : Type) where
  static_route : List (String × List Stage)
  dynamic_route : List (RegexPath × List Stage)

/-- The empty table the compile loop starts from (router.rs lines 125-126). -/
def emptyTable {Stage : Type} : Table Stage :=
  { static_route := [], dynamic_route := [] }

/-- Exact lookup in the static table (`static_route.get(&path)`,
router.rs line 162). -/
def staticGet {Stage : Type} (tbl : List (String × List Stage)) (path : String) :
    Option (List Stage) :=
  (tbl.find? fun kv => kv.1 == path).map fun kv => kv.2

/-- The compile loop of `Router::handler` (router.rs lines 127-138): each
endpoint is partitioned by path kind; a static path already present makes
the whole compilation fail with `Conflict::Path` (the model of
`static_route.insert` returning a previous value); dynamic endpoints are
appended in order. -/
def buildTable {Stage : Type} : List (Endpoint Stage) → Table Stage → Except Conflict (Table Stage)
  | [], acc => Except.ok acc
  | e :: rest, acc =>
    match e.path with
    | Path.Static p =>
      if (staticGet acc.static_route p).isSome then Except.error (Conflict.Path p)
      else buildTable rest { acc with static_route := acc.static_route ++ [(p, e.middleware)] }
    | Path.Dynamic rp =>
      buildTable rest { acc with dynamic_route := acc.dynamic_route ++ [(rp, e.middleware)] }

/-- `Router::handler` up to the returned closure: flatten the tree and
compile the dispatch table. -/
def Router.handler {Stage : Type} (r : Router Stage) : Except Conflict (Table Stage) :=
  buildTable (Router.endpoints r) emptyTable

/-- The capture publication of the dispatcher (router.rs lines 168-171):
every capture name of the matched pattern is stored under the
routing-reserved namespace, bound to the substring the match gave it. -/
def storeCaptures (ctx : Context) (vars : List String) (cap : List (String × String)) : Context :=
  vars.foldl (fun c v => c.store RouterSymbol v (capLookup cap v)) ctx

/-- The dynamic scan of the dispatcher (router.rs lines 166-175): the
entries are tried in order; the first whose pattern matches has its
captures published and its chain invoked; if none matches the dispatch
fails with NOT_FOUND and an empty message. -/
def dynDispatch {Stage : Type} :
    List (RegexPath × List Stage) → Context → String → Except Status (Context × List Stage)
  | [], _, _ => Roa.throw 404 ""
  | (rp, chain) :: rest, ctx, path =>
    match rp.matches path with
    | some cap => Except.ok (storeCaptures ctx rp.vars cap, chain)
    | none => dynDispatch rest ctx path

/-- The request-time closure of `Router::handler` (router.rs lines
143-177): standardize the (already percent-decoded) request path, try the
static table, then the dynamic list. A successful dispatch yields the
context as extended by capture publication together with the endpoint
chain that is then invoked; a failed one yields the `Status` and invokes
no chain. The utf-8 decode failure branch (a BAD_REQUEST status) sits
before this model's input. -/
def dispatch {Stage : Type} (tbl : Table Stage) (ctx : Context) (raw_path : String) :
    Except Status (Context × List Stage) :=
  let path := standardize_path raw_path
  match staticGet tbl.static_route path with
  | some chain => Except.ok (ctx, chain)
  | none => dynDispatch tbl.dynamic_route ctx path

/-- The static paths claimed by an endpoint list, in order. -/
def staticPaths {Stage : Type} (eps : List (Endpoint Stage)) : List String :=
  eps.filterMap fun e =>
    match e.path with
    | Path.Static p => some p
    | Path.Dynamic _ => none

/-- The dynamic entries of an endpoint list, in order. -/
def dynEntries {Stage : Type} (eps : List (Endpoint Stage)) : List (RegexPath × List Stage) :=
  eps.filterMap fun e =>
    match e.path with
    | Path.Dynamic rp => some (rp, e.middleware)
    | Path.Static _ => none

/-- The keys of a static table. -/
def tableKeys {Stage : Type} (tbl : List (String × List Stage)) : List String :=
  tbl.map fun kv => kv.1

/-! ## Lemmas about path standardization -/

theorem splitSlash_ne_nil (l : List Char) : splitSlash l ≠ [] := by
  match l with
  | [] => simp [splitSlash]
  | c :: rest =>
    simp only [splitSlash]
    split
    · simp
    · cases h : splitSlash rest <;> simp [consHead, h]

theorem splitSlash_no_slash : ∀ (l : List Char), ∀ s ∈ splitSlash l, '/' ∉ s := by
  intro l
  induction l with
  | nil =>
    intro s hs
    simp [splitSlash] at hs
    simp [hs]
  | cons c rest ih =>
    intro s hs
    simp only [splitSlash] at hs
    by_cases hc : c = '/'
    · rw [if_pos hc] at hs
      rcases List.mem_cons.mp hs with h | h
      · simp [h]
      · exact ih s h
    · rw [if_neg hc] at hs
      rcases h2 : splitSlash rest with _ | ⟨a, as⟩
      · exact absurd h2 (splitSlash_ne_nil rest)
      · rw [h2] at hs
        simp only [consHead] at hs
        rcases List.mem_cons.mp hs with h | h
        · subst h
          intro hmem
          rcases List.mem_cons.mp hmem with h | h
          · exact hc h.symm
          · exact ih a (by rw [h2]; exact List.mem_cons_self a as) h
        · exact ih s (by rw [h2]; exact List.mem_cons_of_mem a h)

theorem splitSlash_append (s : List Char) {l a : List Char} {as : List (List Char)}
    (hs : '/' ∉ s) (hl : splitSlash l = a :: as) :
    splitSlash (s ++ l) = (s ++ a) :: as := by
  induction s with
  | nil => simpa using hl
  | cons c s ih =>
    have hc : c ≠ '/' := fun h => hs (h ▸ List.mem_cons_self c s)
    have hs' : '/' ∉ s := fun h => hs (List.mem_cons_of_mem c h)
    show splitSlash (c :: (s ++ l)) = (c :: (s ++ a)) :: as
    show (if c = '/' then [] :: splitSlash (s ++ l) else consHead c (splitSlash (s ++ l)))
        = (c :: (s ++ a)) :: as
    rw [if_neg hc, ih hs']
    rfl

theorem splitSlash_joinSegs : ∀ (segs : List (List Char)),
    (∀ s ∈ segs, s ≠ [] ∧ '/' ∉ s) →
    (splitSlash (joinSegs segs)).filter (fun s => !s.isEmpty) = segs
  | [], _ => by simp [joinSegs, splitSlash]
  | [s], h => by
    have hs := h s (by simp)
    have hsplit : splitSlash (s ++ []) = (s ++ []) :: ([] : List (List Char)) :=
      splitSlash_append s hs.2 (by simp [splitSlash])
    rw [List.append_nil] at hsplit
    simp [joinSegs, hsplit, List.filter_cons, hs.1]
  | s :: t :: rest, h => by
    have hs := h s (List.mem_cons_self s (t :: rest))
    have hrest : ∀ x ∈ t :: rest, x ≠ [] ∧ '/' ∉ x :=
      fun x hx => h x (List.mem_cons_of_mem s hx)
    have ih := splitSlash_joinSegs (t :: rest) hrest
    rcases h2 : splitSlash (joinSegs (t :: rest)) with _ | ⟨a, as⟩
    · exact absurd h2 (splitSlash_ne_nil _)
    · have h3 : splitSlash ('/' :: joinSegs (t :: rest)) = [] :: a :: as := by
        simp [splitSlash, h2]
      have h4 : splitSlash (s ++ '/' :: joinSegs (t :: rest)) = (s ++ []) :: a :: as :=
        splitSlash_append s hs.2 h3
      rw [h2] at ih
      show (splitSlash (joinSegs (s :: t :: rest))).filter (fun x => !x.isEmpty) = s :: t :: rest
      simp only [joinSegs, h4, List.append_nil]
      simp [List.filter_cons, hs.1, ih]

theorem segsOf_mem (l : List Char) : ∀ s ∈ segsOf l, s ≠ [] ∧ '/' ∉ s := by
  intro s hs
  simp only [segsOf, List.mem_filter] at hs
  refine ⟨?_, splitSlash_no_slash l s hs.1⟩
  intro h
  subst h
  simp at hs

theorem segsOf_standardize (p : String) :
    segsOf (standardize_path p).data = segsOf p.data := by
  show segsOf ('/' :: joinSegs (segsOf p.data)) = segsOf p.data
  have h1 : splitSlash ('/' :: joinSegs (segsOf p.data))
      = [] :: splitSlash (joinSegs (segsOf p.data)) := by
    simp [splitSlash]
  simp only [segsOf, h1, List.filter_cons]
  simpa using splitSlash_joinSegs (segsOf p.data) (segsOf_mem p.data)

/-- C9: path standardization is idempotent, `"//a//b/"` standardizes to
`"/a/b"`, and the root `"/"` standardizes to itself. -/
theorem standardize_path_idempotent :
    (∀ p : String, standardize_path (standardize_path p) = standardize_path p)
    ∧ standardize_path "//a//b/" = "/a/b"
    ∧ standardize_path "/" = "/" := by
  refine ⟨fun p => ?_, rfl, rfl⟩
  show String.mk ('/' :: joinSegs (segsOf (standardize_path p).data)) = _
  rw [segsOf_standardize]
  rfl

/-! ## Status classification: the claims over err.rs -/

/-- C4: the classification kind is determined by the integer quotient
`code / 100` exactly as err.rs maps it, the three sample codes classify as
the spec says, and every `Status` built by the constructor carries the
inferred kind. -/
theorem statusKind_classification :
    (∀ code : Nat,
      (code / 100 = 1 → StatusKind.infer code = StatusKind.Informational)
      ∧ (code / 100 = 2 → StatusKind.infer code = StatusKind.Successful)
      ∧ (code / 100 = 3 → StatusKind.infer code = StatusKind.Redirection)
      ∧ (code / 100 = 4 → StatusKind.infer code = StatusKind.ClientError)
      ∧ (code / 100 = 5 → StatusKind.infer code = StatusKind.ServerError)
      ∧ (code / 100 ≠ 1 → code / 100 ≠ 2 → code / 100 ≠ 3 → code / 100 ≠ 4 →
          code / 100 ≠ 5 → StatusKind.infer code = StatusKind.Unknown))
    ∧ StatusKind.infer 200 = StatusKind.Successful
    ∧ StatusKind.infer 404 = StatusKind.ClientError
    ∧ StatusKind.infer 503 = StatusKind.ServerError
    ∧ (∀ (c : Nat) (d : String) (e : Bool), (Status.new c d e).kind = StatusKind.infer c) := by
  refine ⟨fun code => ?_, rfl, rfl, rfl, fun c d e => rfl⟩
  rcases h : code / 100 with _ | _ | _ | _ | _ | _ | n <;>
    refine ⟨fun h1 => ?_, fun h2 => ?_, fun h3 => ?_, fun h4 => ?_, fun h5 => ?_,
      fun g1 g2 g3 g4 g5 => ?_⟩ <;>
    simp_all [StatusKind.infer]

/-- Witness for C4 at concrete inputs: 200, 404, 503 and the quotient-6
code 600. -/
theorem statusKind_classification_witness :
    StatusKind.infer 200 = StatusKind.Successful
    ∧ StatusKind.infer 600 = StatusKind.Unknown := by
  refine ⟨statusKind_classification.2.1, ?_⟩
  exact ((statusKind_classification.1 600).2.2.2.2.2 (by decide) (by decide)
    (by decide) (by decide) (by decide))

/-- C5: `need_throw` is true exactly on the ServerError and Unknown kinds,
and false on each of the four other kinds. -/
theorem need_throw_iff :
    ∀ s : Status,
      (s.need_throw = true ↔ (s.kind = StatusKind.ServerError ∨ s.kind = StatusKind.Unknown))
      ∧ (s.need_throw = false ↔ (s.kind = StatusKind.Informational
          ∨ s.kind = StatusKind.Successful
          ∨ s.kind = StatusKind.Redirection
          ∨ s.kind = StatusKind.ClientError)) := by
  intro s
  cases s with
  | mk code kind data expose => cases kind <;> simp [Status.need_throw]

/-- Witness for C5: evaluated at a 503 status and a 404 status. -/
theorem need_throw_iff_witness :
    (Status.new 503 "" true).need_throw = true
    ∧ (Status.new 404 "" true).need_throw = false := by
  constructor
  · exact ((need_throw_iff (Status.new 503 "" true)).1.mpr (Or.inl rfl))
  · exact ((need_throw_iff (Status.new 404 "" true)).2.mpr (Or.inr (Or.inr (Or.inr rfl))))

/-! ## The param / try_param agreement -/

/-- C7: `param` succeeds with exactly the values `try_param` returns, and
fails precisely when `try_param` returns none, with a BAD_REQUEST-classified
status carrying an exposable message. -/
theorem param_try_param_agreement :
    ∀ (ctx : Context) (name : String),
      (∀ v : String, ctx.param name = Except.ok v ↔ ctx.try_param name = some v)
      ∧ (ctx.param name =
            Except.error (Status.new 400 ("router variable `" ++ name ++ "` is required") true)
          ↔ ctx.try_param name = none)
      ∧ (Status.new 400 ("router variable `" ++ name ++ "` is required") true).kind
          = StatusKind.ClientError
      ∧ (Status.new 400 ("router variable `" ++ name ++ "` is required") true).expose = true := by
  intro ctx name
  refine ⟨fun v => ?_, ?_, rfl, rfl⟩ <;>
    cases h : ctx.try_param name <;> simp [Context.param, h]

/-- Witness for C7: a context holding the capture ("id", "42") and one
missing name. -/
theorem param_try_param_agreement_witness :
    ((Context.mk [(RouterSymbol, "id", "42")]).param "id" = Except.ok "42"
      ↔ (Context.mk [(RouterSymbol, "id", "42")]).try_param "id" = some "42")
    ∧ ((Context.mk []).param "missing" =
          Except.error (Status.new 400 ("router variable `" ++ "missing" ++ "` is required") true)
        ↔ (Context.mk []).try_param "missing" = none) :=
  ⟨(param_try_param_agreement (Context.mk [(RouterSymbol, "id", "42")]) "id").1 "42",
    (param_try_param_agreement (Context.mk []) "missing").2.1⟩

/-! ## Flattening gives every endpoint its ancestors' middleware, root-first -/

mutual

theorem node_endpoints_spec {Stage : Type} (anc : List Stage) :
    ∀ (n : Node Stage),
      (Node.endpoints n).map (fun e => { e with middleware := anc ++ e.middleware })
        = Node.endpointsSpec anc n
  | Node.endpoint e => by
    simp [Node.endpoints, Node.endpointsSpec]
  | Node.router root mw ns => by
    rw [Node.endpoints, Node.endpointsSpec, List.map_map]
    have hcomp : ((fun e : Endpoint Stage => { e with middleware := anc ++ e.middleware }) ∘
          fun e : Endpoint Stage => { e with middleware := mw ++ e.middleware })
        = fun e : Endpoint Stage => { e with middleware := (anc ++ mw) ++ e.middleware } := by
      funext e
      simp [List.append_assoc]
    rw [hcomp, nodes_endpoints_spec (anc ++ mw) ns]

theorem nodes_endpoints_spec {Stage : Type} (anc : List Stage) :
    ∀ (ns : List (Node Stage)),
      (endpointsOfNodes ns).map (fun e => { e with middleware := anc ++ e.middleware })
        = nodesEndpointsSpec anc ns
  | [] => by
    simp [endpointsOfNodes, nodesEndpointsSpec]
  | n :: rest => by
    rw [endpointsOfNodes, nodesEndpointsSpec, List.map_append,
      node_endpoints_spec anc n, nodes_endpoints_spec anc rest]

end

/-- C2: compiling a route tree of arbitrary nesting depth gives each
endpoint a chain equal to every ancestor router's middleware prepended
root-first in front of the endpoint's own middleware (the code-side
flattening `Router.endpoints` equals the spec-side `Router.endpointsSpec`);
since a chain executes in list order, ancestor stages run before all
descendant-router and endpoint stages. -/
theorem router_endpoints_ancestor_first :
    ∀ (Stage : Type) (r : Router Stage), Router.endpoints r = Router.endpointsSpec r := by
  intro Stage r
  have h := nodes_endpoints_spec r.middleware r.nodes
  simpa [Router.endpoints, Router.endpointsSpec] using h

/-! ## Compilation: duplicate static paths are the only conflict -/

theorem staticGet_eq_none_iff {Stage : Type} (tbl : List (String × List Stage)) (p : String) :
    staticGet tbl p = none ↔ p ∉ tableKeys tbl := by
  simp only [staticGet, Option.map_eq_none', List.find?_eq_none, beq_iff_eq, tableKeys,
    List.mem_map]
  constructor
  · rintro h ⟨kv, hkv, hp⟩
    exact h kv hkv hp
  · intro h kv hkv he
    exact h ⟨kv, hkv, he⟩

theorem staticGet_append_keys {Stage : Type} (tbl : List (String × List Stage))
    (p : String) (mw : List Stage) :
    tableKeys (tbl ++ [(p, mw)]) = tableKeys tbl ++ [p] := by
  simp [tableKeys]

theorem buildTable_ok_of_nodup {Stage : Type} :
    ∀ (eps : List (Endpoint Stage)) (acc : Table Stage),
      (staticPaths eps).Nodup →
      (∀ p ∈ staticPaths eps, p ∉ tableKeys acc.static_route) →
      ∃ t, buildTable eps acc = Except.ok t
  | [], acc, _, _ => ⟨acc, rfl⟩
  | ⟨pa, mw⟩ :: rest, acc, hnd, hdisj => by
    cases pa with
    | Static p =>
      have hpaths : staticPaths (Endpoint.mk (Path.Static p) mw :: rest)
          = p :: staticPaths rest := by
        simp [staticPaths]
      rw [hpaths] at hnd hdisj
      have hp : p ∉ tableKeys acc.static_route := hdisj p (List.mem_cons_self _ _)
      have hnone : staticGet acc.static_route p = none :=
        (staticGet_eq_none_iff _ _).mpr hp
      have hrec := buildTable_ok_of_nodup rest
        { acc with static_route := acc.static_route ++ [(p, mw)] }
        (List.Nodup.of_cons hnd)
        (by
          intro q hq
          rw [staticGet_append_keys]
          simp only [List.mem_append, List.mem_singleton]
          rintro (h | h)
          · exact hdisj q (List.mem_cons_of_mem _ hq) h
          · subst h
            exact (List.nodup_cons.mp hnd).1 hq)
      obtain ⟨t, ht⟩ := hrec
      refine ⟨t, ?_⟩
      simp [buildTable, hnone, ht]
    | Dynamic rp =>
      have hpaths : staticPaths (Endpoint.mk (Path.Dynamic rp) mw :: rest)
          = staticPaths rest := by
        simp [staticPaths]
      rw [hpaths] at hnd hdisj
      obtain ⟨t, ht⟩ := buildTable_ok_of_nodup rest
        { acc with dynamic_route := acc.dynamic_route ++ [(rp, mw)] } hnd hdisj
      refine ⟨t, ?_⟩
      simp [buildTable, ht]

theorem buildTable_error_dup {Stage : Type} :
    ∀ (eps : List (Endpoint Stage)) (acc : Table Stage) (c : Conflict),
      buildTable eps acc = Except.error c →
      ∃ p, c = Conflict.Path p ∧ p ∈ staticPaths eps ∧
        (p ∈ tableKeys acc.static_route ∨ 2 ≤ (staticPaths eps).count p)
  | [], _, c, h => by simp [buildTable] at h
  | ⟨pa, mw⟩ :: rest, acc, c, h => by
    cases pa with
    | Static p =>
      have hpaths : staticPaths (Endpoint.mk (Path.Static p) mw :: rest)
          = p :: staticPaths rest := by
        simp [staticPaths]
      by_cases hin : (staticGet acc.static_route p).isSome
      · have hc : c = Conflict.Path p := by
          simp [buildTable, hin] at h
          exact h.symm
        have hmem : p ∈ tableKeys acc.static_route := by
          by_contra hnot
          rw [← staticGet_eq_none_iff] at hnot
          simp [hnot] at hin
        exact ⟨p, hc, by simp [hpaths], Or.inl hmem⟩
      · have hstep : buildTable rest
            { acc with static_route := acc.static_route ++ [(p, mw)] } = Except.error c := by
          simpa [buildTable, hin] using h
        obtain ⟨q, hq, hqmem, hdisj⟩ := buildTable_error_dup rest _ c hstep
        refine ⟨q, hq, by simp [hpaths, hqmem], ?_⟩
        rcases hdisj with hk | hcnt
        · rw [staticGet_append_keys] at hk
          rcases List.mem_append.mp hk with hk | hk
          · exact Or.inl hk
          · right
            have hqp : q = p := by simpa using hk
            subst hqp
            rw [hpaths, List.count_cons_self]
            have : 0 < (staticPaths rest).count q := List.count_pos_iff.mpr hqmem
            omega
        · right
          rw [hpaths, List.count_cons]
          omega
    | Dynamic rp =>
      have hpaths : staticPaths (Endpoint.mk (Path.Dynamic rp) mw :: rest)
          = staticPaths rest := by
        simp [staticPaths]
      have hstep : buildTable rest
          { acc with dynamic_route := acc.dynamic_route ++ [(rp, mw)] } = Except.error c := by
        simpa [buildTable] using h
      obtain ⟨q, hq, hqmem, hdisj⟩ := buildTable_error_dup rest _ c hstep
      exact ⟨q, hq, by simp [hpaths, hqmem], by simpa [hpaths] using hdisj⟩

theorem nodup_of_buildTable_ok {Stage : Type} :
    ∀ (eps : List (Endpoint Stage)) (acc : Table Stage) (t : Table Stage),
      buildTable eps acc = Except.ok t →
      (staticPaths eps).Nodup ∧ ∀ p ∈ staticPaths eps, p ∉ tableKeys acc.static_route
  | [], _, _, _ => ⟨List.nodup_nil, by simp [staticPaths]⟩
  | ⟨pa, mw⟩ :: rest, acc, t, h => by
    cases pa with
    | Static p =>
      have hpaths : staticPaths (Endpoint.mk (Path.Static p) mw :: rest)
          = p :: staticPaths rest := by
        simp [staticPaths]
      by_cases hin : (staticGet acc.static_route p).isSome
      · simp [buildTable, hin] at h
      · have hstep : buildTable rest
            { acc with static_route := acc.static_route ++ [(p, mw)] } = Except.ok t := by
          simpa [buildTable, hin] using h
        obtain ⟨hnd, hdisj⟩ := nodup_of_buildTable_ok rest _ t hstep
        have hpn : p ∉ tableKeys acc.static_route := by
          rw [← staticGet_eq_none_iff]
          exact Option.not_isSome_iff_eq_none.mp hin
        have hprest : p ∉ staticPaths rest := by
          intro hmem
          have hk := hdisj p hmem
          rw [staticGet_append_keys] at hk
          simp at hk
        constructor
        · rw [hpaths]
          exact List.nodup_cons.mpr ⟨hprest, hnd⟩
        · rw [hpaths]
          intro q hq
          rcases List.mem_cons.mp hq with hq | hq
          · subst hq
            exact hpn
          · intro hqk
            exact (hdisj q hq) (by
              rw [staticGet_append_keys]
              exact List.mem_append_left _ hqk)
    | Dynamic rp =>
      have hpaths : staticPaths (Endpoint.mk (Path.Dynamic rp) mw :: rest)
          = staticPaths rest := by
        simp [staticPaths]
      obtain ⟨hnd, hdisj⟩ := nodup_of_buildTable_ok rest
        { acc with dynamic_route := acc.dynamic_route ++ [(rp, mw)] } t
        (by simpa [buildTable] using h)
      exact ⟨by simpa [hpaths] using hnd, by simpa [hpaths] using hdisj⟩

/-- C3: if two endpoints of one route tree compile to an identical static
path, `Router::handler` fails with a Conflict naming a duplicated path and
yields no dispatch table; if the static paths are pairwise distinct, the
compilation does not fail with a Conflict. -/
theorem handler_conflict_on_duplicate_static :
    ∀ (Stage : Type) (r : Router Stage),
      (¬ (staticPaths (Router.endpoints r)).Nodup →
        ∃ p, Router.handler r = Except.error (Conflict.Path p)
          ∧ 2 ≤ (staticPaths (Router.endpoints r)).count p)
      ∧ ((staticPaths (Router.endpoints r)).Nodup →
        ∃ t, Router.handler r = Except.ok t) := by
  intro Stage r
  constructor
  · intro hdup
    rcases h : Router.handler r with c | t
    · obtain ⟨p, hp, _, hdisj⟩ := buildTable_error_dup (Router.endpoints r) emptyTable c h
      subst hp
      rcases hdisj with hk | hcnt
      · simp [emptyTable, tableKeys] at hk
      · exact ⟨p, rfl, hcnt⟩
    · exact absurd (nodup_of_buildTable_ok (Router.endpoints r) emptyTable t h).1 hdup
  · intro hnd
    exact buildTable_ok_of_nodup (Router.endpoints r) emptyTable hnd (by simp [emptyTable, tableKeys])

/-- Witness for C3: a tree holding two endpoints at the identical static
path "/a" fails compilation with a Conflict naming a duplicated path. -/
theorem handler_conflict_on_duplicate_static_witness :
    ∃ p, Router.handler (Router.mk "/" ([] : List Unit)
        [Node.endpoint (Endpoint.mk (Path.Static "/a") []),
          Node.endpoint (Endpoint.mk (Path.Static "/a") [])])
      = Except.error (Conflict.Path p)
      ∧ 2 ≤ (staticPaths (Router.endpoints (Router.mk "/" ([] : List Unit)
          [Node.endpoint (Endpoint.mk (Path.Static "/a") []),
            Node.endpoint (Endpoint.mk (Path.Static "/a") [])]))).count p := by
  refine (handler_conflict_on_duplicate_static Unit _).1 ?_
  simp [Router.endpoints, endpointsOfNodes, Node.endpoints, staticPaths]

/-! ## Dispatch: static precedence, dynamic order, captures, not-found -/

theorem dynDispatch_append {Stage : Type} :
    ∀ (pre rest : List (RegexPath × List Stage)) (ctx : Context) (path : String),
      (∀ q ∈ pre, q.1.matches path = none) →
      dynDispatch (pre ++ rest) ctx path = dynDispatch rest ctx path
  | [], _, _, _, _ => rfl
  | (rp, chain) :: pre, rest, ctx, path, h => by
    have h1 : rp.matches path = none := h (rp, chain) (List.mem_cons_self _ _)
    have h2 : ∀ q ∈ pre, q.1.matches path = none :=
      fun q hq => h q (List.mem_cons_of_mem _ hq)
    show dynDispatch ((rp, chain) :: (pre ++ rest)) ctx path = _
    simp [dynDispatch, h1, dynDispatch_append pre rest ctx path h2]

theorem dynDispatch_none {Stage : Type} :
    ∀ (dl : List (RegexPath × List Stage)) (ctx : Context) (path : String),
      (∀ q ∈ dl, q.1.matches path = none) →
      dynDispatch dl ctx path = Except.error (Status.new 404 "" true)
  | [], _, _, _ => rfl
  | (rp, chain) :: rest, ctx, path, h => by
    have h1 : rp.matches path = none := h (rp, chain) (List.mem_cons_self _ _)
    have h2 : ∀ q ∈ rest, q.1.matches path = none :=
      fun q hq => h q (List.mem_cons_of_mem _ hq)
    simp [dynDispatch, h1, dynDispatch_none rest ctx path h2]

theorem buildTable_dynamic_order {Stage : Type} :
    ∀ (eps : List (Endpoint Stage)) (acc : Table Stage) (t : Table Stage),
      buildTable eps acc = Except.ok t →
      t.dynamic_route = acc.dynamic_route ++ dynEntries eps
  | [], acc, t, h => by
    simp only [buildTable, Except.ok.injEq] at h
    subst h
    simp [dynEntries]
  | ⟨pa, mw⟩ :: rest, acc, t, h => by
    cases pa with
    | Static p =>
      by_cases hin : (staticGet acc.static_route p).isSome
      · simp [buildTable, hin] at h
      · have hstep : buildTable rest
            { acc with static_route := acc.static_route ++ [(p, mw)] } = Except.ok t := by
          simpa [buildTable, hin] using h
        have ih := buildTable_dynamic_order rest _ t hstep
        simpa [dynEntries] using ih
    | Dynamic rp =>
      have hstep : buildTable rest
          { acc with dynamic_route := acc.dynamic_route ++ [(rp, mw)] } = Except.ok t := by
        simpa [buildTable] using h
      have ih := buildTable_dynamic_order rest _ t hstep
      simp only [dynEntries, List.filterMap_cons] at ih ⊢
      simpa [List.append_assoc] using ih

/-- C1: the dispatcher looks the standardized path up in the static table
first — on a static hit the result does not depend on the dynamic list at
all; only on a static miss are the dynamic patterns tried, in list order,
and the first match wins with all later entries irrelevant to the result;
and a compiled table's dynamic list carries the endpoints' dynamic entries
in exactly their flattened registration order. -/
theorem dispatch_static_precedence {Stage : Type} (tbl : Table Stage) (ctx : Context)
    (raw : String) :
    (∀ chain, staticGet tbl.static_route (standardize_path raw) = some chain →
      ∀ dyn, dispatch { tbl with dynamic_route := dyn } ctx raw = Except.ok (ctx, chain))
    ∧ (staticGet tbl.static_route (standardize_path raw) = none →
      ∀ (pre : List (RegexPath × List Stage)) (rp : RegexPath) (chain : List Stage)
          (cap : List (String × String)),
        (∀ q ∈ pre, q.1.matches (standardize_path raw) = none) →
        rp.matches (standardize_path raw) = some cap →
        ∀ post, dispatch { tbl with dynamic_route := pre ++ (rp, chain) :: post } ctx raw
          = Except.ok (storeCaptures ctx rp.vars cap, chain))
    ∧ (∀ (eps : List (Endpoint Stage)) (t : Table Stage),
        buildTable eps emptyTable = Except.ok t → t.dynamic_route = dynEntries eps) := by
  refine ⟨?_, ?_, ?_⟩
  · intro chain h dyn
    simp [dispatch, h]
  · intro hmiss pre rp chain cap hpre hmatch post
    have hd := dynDispatch_append pre ((rp, chain) :: post) ctx (standardize_path raw) hpre
    simp [dispatch, hmiss, hd, dynDispatch, hmatch]
  · intro eps t h
    simpa [emptyTable] using buildTable_dynamic_order eps emptyTable t h

/-- Witness for C1: a table holding static "/a" dispatches "/a" statically,
whatever the dynamic list holds. -/
theorem dispatch_static_precedence_witness :
    dispatch (Table.mk [("/a", [0])] [(RegexPath.mk [] [], [1])] : Table Nat)
        (Context.mk []) "/a"
      = Except.ok (Context.mk [], [0]) := by
  have h := (dispatch_static_precedence
      (Table.mk [("/a", [0])] [(RegexPath.mk [] [], [1])] : Table Nat) (Context.mk []) "/a").1
      [0] rfl [(RegexPath.mk [] [], [1])]
  simpa using h

/-! ## Captures land in the scoped store before the chain runs -/

theorem load_store_same (c : Context) (v val : String) :
    (c.store RouterSymbol v val).load RouterSymbol v = some val := by
  simp only [Context.store, Context.load]
  rw [List.find?_cons_of_pos _ (by simp)]
  rfl

theorem load_store_ne (c : Context) (n v val : String) (h : n ≠ v) :
    (c.store RouterSymbol n val).load RouterSymbol v = c.load RouterSymbol v := by
  simp only [Context.store, Context.load]
  rw [List.find?_cons_of_neg _ (by simp [h])]

theorem storeCaptures_load_not_mem :
    ∀ (vars : List String) (c : Context) (cap : List (String × String)) (v : String),
      v ∉ vars →
      (storeCaptures c vars cap).load RouterSymbol v = c.load RouterSymbol v
  | [], _, _, _, _ => rfl
  | w :: vars, c, cap, v, h => by
    have hvw : w ≠ v := fun he => h (he ▸ List.mem_cons_self w vars)
    have hv : v ∉ vars := fun hm => h (List.mem_cons_of_mem _ hm)
    show (storeCaptures (c.store RouterSymbol w (capLookup cap w)) vars cap).load
        RouterSymbol v = _
    rw [storeCaptures_load_not_mem vars _ cap v hv, load_store_ne _ _ _ _ hvw]

theorem storeCaptures_load_mem :
    ∀ (vars : List String) (c : Context) (cap : List (String × String)) (v : String),
      vars.Nodup → v ∈ vars →
      (storeCaptures c vars cap).load RouterSymbol v = some (capLookup cap v)
  | [], _, _, v, _, hv => absurd hv (List.not_mem_nil v)
  | w :: vars, c, cap, v, hnd, hv => by
    show (storeCaptures (c.store RouterSymbol w (capLookup cap w)) vars cap).load
        RouterSymbol v = _
    rcases List.mem_cons.mp hv with he | hm
    · subst he
      have hnw : v ∉ vars := (List.nodup_cons.mp hnd).1
      rw [storeCaptures_load_not_mem vars _ cap v hnw, load_store_same]
    · exact storeCaptures_load_mem vars _ cap v (List.nodup_cons.mp hnd).2 hm

/-- C6: when dispatch resolves a request through a dynamic pattern, every
capture variable of that pattern is readable from the request's scoped
store under the router-reserved namespace, bound to the matched substring,
in the context handed to the endpoint's chain; when dispatch resolves
through the static table the context is returned untouched, so no capture
is written. -/
theorem dispatch_publishes_captures {Stage : Type} (tbl : Table Stage) (ctx : Context)
    (raw : String) :
    (∀ chain, staticGet tbl.static_route (standardize_path raw) = some chain →
      dispatch tbl ctx raw = Except.ok (ctx, chain))
    ∧ (∀ (pre post : List (RegexPath × List Stage)) (rp : RegexPath) (chain : List Stage)
        (cap : List (String × String)),
        staticGet tbl.static_route (standardize_path raw) = none →
        tbl.dynamic_route = pre ++ (rp, chain) :: post →
        (∀ q ∈ pre, q.1.matches (standardize_path raw) = none) →
        rp.matches (standardize_path raw) = some cap →
        rp.vars.Nodup →
        dispatch tbl ctx raw = Except.ok (storeCaptures ctx rp.vars cap, chain)
        ∧ (∀ v ∈ rp.vars, (storeCaptures ctx rp.vars cap).load RouterSymbol v
            = some (capLookup cap v))) := by
  constructor
  · intro chain h
    simp [dispatch, h]
  · intro pre post rp chain cap hmiss htbl hpre hmatch hnd
    constructor
    · have hd := dynDispatch_append pre ((rp, chain) :: post) ctx (standardize_path raw) hpre
      simp [dispatch, hmiss, htbl, hd, dynDispatch, hmatch]
    · intro v hv
      exact storeCaptures_load_mem rp.vars ctx cap v hnd hv

/-- Witness for C6: the pattern "/items/:id" dispatches "/items/42" and the
capture "id" reads back as "42" from the router namespace. -/
theorem dispatch_publishes_captures_witness :
    dispatch
        (Table.mk []
          [(RegexPath.mk [Segment.literal "items", Segment.capture "id" none] ["id"], [5])]
          : Table Nat)
        (Context.mk []) "/items/42"
      = Except.ok (storeCaptures (Context.mk []) ["id"] [("id", "42")], [5])
    ∧ (storeCaptures (Context.mk []) ["id"] [("id", "42")]).load RouterSymbol "id"
      = some (capLookup [("id", "42")] "id") := by
  have h := (dispatch_publishes_captures
      (Table.mk []
        [(RegexPath.mk [Segment.literal "items", Segment.capture "id" none] ["id"], [5])]
        : Table Nat)
      (Context.mk []) "/items/42").2
      [] [] (RegexPath.mk [Segment.literal "items", Segment.capture "id" none] ["id"])
      [5] [("id", "42")] rfl rfl (by simp) rfl (by simp)
  exact ⟨h.1, h.2 "id" (by simp)⟩

/-- C8: a standardized path matching no static entry and no dynamic
pattern makes dispatch fail with the Not-Found status: code 404,
ClientError kind, empty message; the error value carries no endpoint
chain, so none is invoked. -/
theorem dispatch_not_found {Stage : Type} (tbl : Table Stage) (ctx : Context) (raw : String)
    (h1 : staticGet tbl.static_route (standardize_path raw) = none)
    (h2 : ∀ q ∈ tbl.dynamic_route, q.1.matches (standardize_path raw) = none) :
    dispatch tbl ctx raw = Except.error (Status.new 404 "" true)
    ∧ (Status.new 404 "" true).status_code = 404
    ∧ (Status.new 404 "" true).kind = StatusKind.ClientError
    ∧ (Status.new 404 "" true).data = "" := by
  refine ⟨?_, rfl, rfl, rfl⟩
  simp [dispatch, h1, dynDispatch_none tbl.dynamic_route ctx (standardize_path raw) h2]

/-- Witness for C8: the empty table turns "/missing" into the 404 status. -/
theorem dispatch_not_found_witness :
    dispatch (emptyTable : Table Unit) (Context.mk []) "/missing"
        = Except.error (Status.new 404 "" true)
    ∧ (Status.new 404 "" true).status_code = 404
    ∧ (Status.new 404 "" true).kind = StatusKind.ClientError
    ∧ (Status.new 404 "" true).data = "" :=
  dispatch_not_found (emptyTable : Table Unit) (Context.mk []) "/missing" rfl
    (by simp [emptyTable])

/-! ## Registration never reaches the unwrap panics -/

/-- C10: for every router state and path, `route` returns its handle (the
node just pushed is a router, so `unwrap_router` succeeds) and `on` either
fails to parse the path or returns its handle (the node just pushed is an
endpoint, so `unwrap_endpoint` succeeds): the panic branches of the
unwraps, modelled by `none`, are never taken by registration. -/
theorem registration_no_panic :
    ∀ (Stage : Type) (r : Router Stage) (path : String),
      (Router.route r path).isSome = true
      ∧ ((Router.on r path).toOption.all Option.isSome) = true := by
  intro Stage r path
  constructor
  · simp [Router.route, List.getElem?_concat_length, Node.unwrap_router]
  · cases h : parsePath (join_path [r.root, path]) with
    | error e => simp [Router.on, h, Except.toOption, Option.all]
    | ok p =>
      simp [Router.on, h, List.getElem?_concat_length, Node.unwrap_endpoint,
        Except.toOption, Option.all]

end Roa
